import Mathlib

/-!
Shallow embedding of the u2oobCaption chat core: the completion client
(`lib/ai/chain`, version with token tracking), the two HTTP endpoints
(`app/api/ai/chat/route.ts` and the streaming route), and the Convex
conversation store (`convex/chat.ts`).  JavaScript strings are Lean
`String`s, JS numbers used as token counts / timestamps are `Nat`,
absent or non-object JS values are `Option`, and JS exceptions thrown
by the upstream SDK are values of an explicit error type supplied by an
environment, so that the catch-all control flow of the source can be
reproduced as total functions.
-/

namespace Caption

/-- ASCII lower-casing of a string, character by character; models
JavaScript `toLowerCase` on the ASCII data used by this code base. -/
def strToLower (s : String) : String :=
  (s.toList.map Char.toLower).asString

/-- True when the first list is an initial segment of the second. -/
def startsWithL : List Char → List Char → Bool
  | [], _ => true
  | _ :: _, [] => false
  | a :: as, b :: bs => a == b && startsWithL as bs

/-- True when `pat` occurs contiguously inside the second list. -/
def containsL (pat : List Char) : List Char → Bool
  | [] => startsWithL pat []
  | b :: bs => startsWithL pat (b :: bs) || containsL pat bs

/-- Models JavaScript `hay.includes(pat)` (substring containment). -/
def strIncludes (hay pat : String) : Bool :=
  containsL pat.toList hay.toList

/-- Models a JavaScript chain `a || b || ... || 0` over optional numbers:
the first present, non-zero value wins, otherwise the result is `0`
(in JS the number `0` is falsy, exactly like a missing field). -/
def firstTruthyN : List (Option Nat) → Nat
  | [] => 0
  | o :: rest =>
    match o with
    | some n => if n = 0 then firstTruthyN rest else n
    | none => firstTruthyN rest

/-- Models JavaScript `s || d` for an optional string: the empty string
is falsy, so it falls through to the default just like a missing value. -/
def jsOrStr (o : Option String) (d : String) : String :=
  match o with
  | some s => if s = "" then d else s
  | none => d

/-! ### Completion client (`lib/ai/chain`, `extractTokenUsage`) -/

/-- A usage-shaped JS object: every token-count field that
`extractTokenUsage` ever reads, each optional. -/
structure TokenFields where
  prompt_tokens : Option Nat := none
  completion_tokens : Option Nat := none
  total_tokens : Option Nat := none
  input_tokens : Option Nat := none
  output_tokens : Option Nat := none
  promptTokens : Option Nat := none
  completionTokens : Option Nat := none
  totalTokens : Option Nat := none
  inputTokens : Option Nat := none
  outputTokens : Option Nat := none
deriving DecidableEq

/-- The normalized result of token extraction. -/
structure TokenUsage where
  inputTokens : Nat
  outputTokens : Nat
  totalTokens : Nat
deriving DecidableEq

/-- The `response_metadata` field of a LangChain chat-model response. -/
structure ResponseMetadata where
  usage_metadata : Option TokenFields := none
  tokenUsage : Option TokenFields := none
  finish_reason : Option String := none
deriving DecidableEq

/-- The `llmOutput` field of a callback-style response. -/
structure LlmOutput where
  tokenUsage : Option TokenFields := none
deriving DecidableEq

/-- A provider/SDK response as probed by `extractTokenUsage`.  `entries`
holds the remaining top-level fields, in insertion order, for the final
`Object.entries` scan; a `none` value stands for a field whose value is
not a (non-null) object.  The fixed keys `content`, `response_metadata`,
`llmOutput` and `usage` never pass the scan's key test (none of them
contains the substring "token"), so keeping them out of `entries`
preserves the scan's behavior. -/
structure ModelResponse where
  content : String := ""
  response_metadata : Option ResponseMetadata := none
  llmOutput : Option LlmOutput := none
  usage : Option TokenFields := none
  entries : List (String × Option TokenFields) := []
deriving DecidableEq

/-- Reading `{input_tokens, output_tokens, total_tokens}` from a
`usage_metadata` object, each defaulted to `0` (the `|| 0` in source). -/
def usageFromUsageMetadata (um : TokenFields) : TokenUsage :=
  { inputTokens := firstTruthyN [um.input_tokens]
    outputTokens := firstTruthyN [um.output_tokens]
    totalTokens := firstTruthyN [um.total_tokens] }

/-- Reading a callback-style `tokenUsage` object:
`promptTokens || inputTokens || 0`, etc. -/
def usageFromTokenUsage (tu : TokenFields) : TokenUsage :=
  { inputTokens := firstTruthyN [tu.promptTokens, tu.inputTokens]
    outputTokens := firstTruthyN [tu.completionTokens, tu.outputTokens]
    totalTokens := firstTruthyN [tu.totalTokens] }

/-- Reading a direct `usage` object: `prompt_tokens || input_tokens || 0`,
etc. -/
def usageFromDirect (u : TokenFields) : TokenUsage :=
  { inputTokens := firstTruthyN [u.prompt_tokens, u.input_tokens]
    outputTokens := firstTruthyN [u.completion_tokens, u.output_tokens]
    totalTokens := firstTruthyN [u.total_tokens] }

/-- Reading a token-ish object found by the last-resort scan:
`prompt_tokens || inputTokens || input_tokens || 0`, etc. -/
def usageFromScanned (td : TokenFields) : TokenUsage :=
  { inputTokens := firstTruthyN [td.prompt_tokens, td.inputTokens, td.input_tokens]
    outputTokens := firstTruthyN [td.completion_tokens, td.outputTokens, td.output_tokens]
    totalTokens := firstTruthyN [td.total_tokens, td.totalTokens] }

/-- The last-resort loop over `Object.entries(response)`: the first entry
whose key (lower-cased) contains "token" and whose value is a non-null
object is read; if none qualifies all counts are zero. -/
def scanEntries : List (String × Option TokenFields) → TokenUsage
  | [] => { inputTokens := 0, outputTokens := 0, totalTokens := 0 }
  | (key, value) :: rest =>
    if strIncludes (strToLower key) "token" then
      match value with
      | some td => usageFromScanned td
      | none => scanEntries rest
    else scanEntries rest

/-- Stage after the `response_metadata` checks: `llmOutput.tokenUsage`,
then the direct `usage` object, then the scan. -/
def extractStage3 (response : ModelResponse) : TokenUsage :=
  match response.usage with
  | some u => usageFromDirect u
  | none => scanEntries response.entries

/-- Stage probing `llmOutput.tokenUsage` (the legacy callback pattern). -/
def extractStage2 (response : ModelResponse) : TokenUsage :=
  match response.llmOutput with
  | some lo =>
    match lo.tokenUsage with
    | some tu => usageFromTokenUsage tu
    | none => extractStage3 response
  | none => extractStage3 response

/-- `extractTokenUsage` from `lib/ai/chain` (token-tracking version):
probes `response_metadata.usage_metadata`, then
`response_metadata.tokenUsage`, then `llmOutput.tokenUsage`, then the
direct `usage` object, and finally scans top-level fields whose key
contains "token"; all zeros if nothing matches. -/
def extractTokenUsage (response : ModelResponse) : TokenUsage :=
  match response.response_metadata with
  | some md =>
    match md.usage_metadata with
    | some um => usageFromUsageMetadata um
    | none =>
      match md.tokenUsage with
      | some tu => usageFromTokenUsage tu
      | none => extractStage2 response
  | none => extractStage2 response

/-! ### Error classification in `generateCompletionWithTokens` -/

/-- A caught JS error as inspected by the catch block: an optional
`message` string and an optional numeric HTTP `status`. -/
structure JsError where
  message : Option String := none
  status : Option Nat := none
deriving DecidableEq

def genericErrorMsg : String :=
  "Sorry, I encountered an error processing your request."

def authConfigMsg : String :=
  "Authentication error: Please check your OpenAI API key configuration."

def modelConfigMsg : String :=
  "Model error: The specified AI model is not available or invalid."

def rateLimitMsg : String :=
  "Rate limit exceeded: Please wait a moment before trying again."

def timeoutMsg : String :=
  "Request timeout: The AI service took too long to respond."

def tooManyRequestsMsg : String :=
  "Too many requests: Please try again in a few moments."

def authFailedMsg : String :=
  "Authentication failed: Please check your API key."

def apiKeyMissingMsg : String :=
  "OpenAI API key is not configured. Please set OPENAI_API_KEY environment variable."

/-- The if/else chain of the catch block, in source order: message
containing "API key", then "model", then "rate limit", then "timeout",
then status 429, then status 401, else the generic message.  A missing
message behaves like a string that contains nothing. -/
def classifyError (error : JsError) : String :=
  let msg := error.message.getD ""
  if strIncludes msg "API key" then authConfigMsg
  else if strIncludes msg "model" then modelConfigMsg
  else if strIncludes msg "rate limit" then rateLimitMsg
  else if strIncludes msg "timeout" then timeoutMsg
  else if error.status = some 429 then tooManyRequestsMsg
  else if error.status = some 401 then authFailedMsg
  else genericErrorMsg

/-- The structured result of `generateCompletionWithTokens`. -/
structure CompletionResult where
  text : String
  tokensUsed : Nat
  inputTokens : Nat
  outputTokens : Nat
  responseTime : Nat
  finishReason : String
deriving DecidableEq

/-- One outbound call to the language-model provider: either the
LangChain `model.invoke` call or the direct OpenAI fallback call; the
payload is the human-message content sent upstream. -/
inductive ProviderCall where
  | chain (input : String)
  | direct (input : String)
deriving DecidableEq

/-- The human-message content of an outbound provider call. -/
def ProviderCall.callInput : ProviderCall → String
  | .chain i => i
  | .direct i => i

/-- Environment for one execution of `generateCompletionWithTokens`:
whether `OPENAI_API_KEY` is set (non-empty), the outcome of the
LangChain call, the outcome of the direct OpenAI fallback call (its
`usage` field, possibly absent), and the wall-clock spans measured by
the two `Date.now() - startTime` sites (after the response, and in the
catch block). -/
structure ChainEnv where
  hasApiKey : Bool
  firstCall : Except JsError ModelResponse
  fallbackCall : Except JsError (Option TokenFields)
  elapsedAtResponse : Nat
  elapsedAtCatch : Nat

/-- The error-path return value of `generateCompletionWithTokens`:
classified message, all token counts zero, the measured elapsed time,
`finishReason = "error"`. -/
def errorResult (e : JsError) (elapsed : Nat) : CompletionResult :=
  { text := classifyError e, tokensUsed := 0, inputTokens := 0, outputTokens := 0
    responseTime := elapsed, finishReason := "error" }

/-- `generateCompletionWithTokens` from `lib/ai/chain` (the version used
by `app/api/ai/chat/route.ts`): validates the API key, makes the
LangChain call, extracts token usage, and — when extraction yields a
zero total — makes a second, direct OpenAI call purely to recover token
counts; every thrown error is caught and converted into `errorResult`.
The second component records the outbound provider calls made. -/
def generateCompletionWithTokens (env : ChainEnv) (input : String) :
    CompletionResult × List ProviderCall :=
  if env.hasApiKey = false then
    (errorResult { message := some apiKeyMissingMsg } env.elapsedAtCatch, [])
  else
    match env.firstCall with
    | .error e => (errorResult e env.elapsedAtCatch, [ProviderCall.chain input])
    | .ok modelResponse =>
      let text := modelResponse.content
      let tokenUsage := extractTokenUsage modelResponse
      let finishReason :=
        jsOrStr (modelResponse.response_metadata.bind (fun md => md.finish_reason)) "stop"
      if tokenUsage.totalTokens = 0 then
        match env.fallbackCall with
        | .ok usage =>
          ({ text := text
             tokensUsed := firstTruthyN [usage.bind (fun u => u.total_tokens)]
             inputTokens := firstTruthyN [usage.bind (fun u => u.prompt_tokens)]
             outputTokens := firstTruthyN [usage.bind (fun u => u.completion_tokens)]
             responseTime := env.elapsedAtResponse
             finishReason := finishReason },
           [ProviderCall.chain input, ProviderCall.direct input])
        | .error _ =>
          ({ text := text, tokensUsed := tokenUsage.totalTokens
             inputTokens := tokenUsage.inputTokens, outputTokens := tokenUsage.outputTokens
             responseTime := env.elapsedAtResponse, finishReason := finishReason },
           [ProviderCall.chain input, ProviderCall.direct input])
      else
        ({ text := text, tokensUsed := tokenUsage.totalTokens
           inputTokens := tokenUsage.inputTokens, outputTokens := tokenUsage.outputTokens
           responseTime := env.elapsedAtResponse, finishReason := finishReason },
         [ProviderCall.chain input])

/-! ### HTTP endpoints (`app/api/ai/chat/route.ts` and the stream route) -/

/-- A parsed request body: `none` stands for an absent or non-string
field (the routes coerce those to the empty string). -/
structure RequestBody where
  input : Option String := none
  conversationId : Option String := none

def parsedInput (body : RequestBody) : String := body.input.getD ""

def parsedConversationId (body : RequestBody) : String := body.conversationId.getD ""

/-- The conversation-context prefix added by both routes:
`` conversationId ? `[Conversation: ${conversationId}]\n${input}` : input ``
(an empty `conversationId` is falsy, so the input passes unchanged). -/
def enhanceInput (conversationId input : String) : String :=
  if conversationId = "" then input
  else "[Conversation: " ++ conversationId ++ "]\n" ++ input

/-- The 200 JSON body of the synchronous chat endpoint. -/
structure ChatOkBody where
  text : String
  conversationId : String
  timestamp : Nat
  model : String
  tokensUsed : Nat
  inputTokens : Nat
  outputTokens : Nat
  responseTime : Nat
  finishReason : String
deriving DecidableEq

/-- The JSON body of a synchronous-endpoint response.  `chatErr` is the
500 branch of the route's catch block; it is never produced in this
model because `generateCompletionWithTokens` is total (it catches every
upstream error itself). -/
inductive SyncBody where
  | missingInput
  | chatOk (body : ChatOkBody)
  | chatErr (error : String) (conversationId : String) (timestamp : Nat)
deriving DecidableEq

/-- An HTTP response of the synchronous endpoint: a status code and a
JSON body. -/
structure HttpResponse where
  status : Nat
  body : SyncBody
deriving DecidableEq

/-- Environment of one request to the synchronous route: the completion
client's environment, the resolved model name
(`process.env.AI_MODEL || "gpt-4.1-nano-2025-04-14"`), and `Date.now()`
at response construction. -/
structure RouteEnv where
  chain : ChainEnv
  modelName : String
  now : Nat

/-- The `POST` handler of `app/api/ai/chat/route.ts`: 400 on empty
input, otherwise a 200 JSON body built from the completion client's
result.  The second component records the outbound provider calls. -/
def syncChatPOST (env : RouteEnv) (body : RequestBody) :
    HttpResponse × List ProviderCall :=
  let input := parsedInput body
  let conversationId := parsedConversationId body
  if input = "" then
    ({ status := 400, body := SyncBody.missingInput }, [])
  else
    let enhancedInput := enhanceInput conversationId input
    let result := generateCompletionWithTokens env.chain enhancedInput
    ({ status := 200
       body := SyncBody.chatOk {
         text := result.1.text
         conversationId := conversationId
         timestamp := env.now
         model := env.modelName
         tokensUsed := result.1.tokensUsed
         inputTokens := result.1.inputTokens
         outputTokens := result.1.outputTokens
         responseTime := result.1.responseTime
         finishReason := result.1.finishReason } },
     result.2)

/-- A response of the streaming route: 400 on empty input, otherwise a
chunked stream produced from `simpleChain.stream({input: enhanced})`,
with the conversation id echoed in a header. -/
inductive StreamResponse where
  | missingInput
  | stream (upstreamInput : String) (conversationHeader : String)
deriving DecidableEq

/-- The `POST` handler of the streaming route, reduced to the data the
claims are about: which prompt is sent upstream. -/
def streamChatPOST (body : RequestBody) : StreamResponse :=
  let input := parsedInput body
  let conversationId := parsedConversationId body
  if input = "" then StreamResponse.missingInput
  else StreamResponse.stream (enhanceInput conversationId input) conversationId

/-- Projection: the `finishReason` field of a 200 chat body, if any. -/
def finishReasonOf (r : HttpResponse) : Option String :=
  match r.body with
  | SyncBody.chatOk b => some b.finishReason
  | _ => none

/-- Projection: the 200 chat body, if any. -/
def okBodyOf (r : HttpResponse) : Option ChatOkBody :=
  match r.body with
  | SyncBody.chatOk b => some b
  | _ => none

/-- True when the completion client's upstream interaction fails: the
API key is missing or the LangChain call throws. -/
def upstreamFailed (env : ChainEnv) : Bool :=
  !env.hasApiKey ||
    (match env.firstCall with
     | .error _ => true
     | .ok _ => false)

/-- The error the catch block receives when the upstream interaction
fails (the synthetic missing-key error, or the thrown SDK error). -/
def caughtError (env : ChainEnv) : JsError :=
  if env.hasApiKey = false then { message := some apiKeyMissingMsg }
  else
    match env.firstCall with
    | .error e => e
    | .ok _ => { }

/-- The `finish_reason` reported by a successful provider response,
before the `|| "stop"` defaulting. -/
def providerReportedFinish (env : ChainEnv) : Option String :=
  match env.firstCall with
  | .ok r => r.response_metadata.bind (fun md => md.finish_reason)
  | .error _ => none

/-! ### Conversation store (`convex/chat.ts`) -/

/-- Message roles, exactly the two enumerated values of the schema. -/
inductive Role where
  | user
  | assistant
deriving DecidableEq

/-- The optional request metadata stored with a message. -/
structure MessageMetadata where
  userAgent : Option String := none
  ipAddress : Option String := none
  sessionId : Option String := none
  timestamp : Option Nat := none
deriving DecidableEq

/-- One row of the `chatMessages` table.  `id` models `_id`,
`creationTime` models the store-assigned `_creationTime`, and `userId`
models the reference into the `users` table. -/
structure ChatMessage where
  id : Nat
  userId : Nat
  role : Role
  content : String
  conversationId : String
  conversationTitle : Option String := none
  model : String := ""
  tokensUsed : Option Nat := none
  responseTime : Option Nat := none
  metadata : Option MessageMetadata := none
  creationTime : Nat
deriving DecidableEq

/-- The message store: rows in insertion order, plus the counters the
store uses to assign fresh `_id` and `_creationTime` values. -/
structure Db where
  messages : List ChatMessage
  nextId : Nat
  nextTime : Nat
deriving DecidableEq

/-- Well-formedness of a store state, as Convex guarantees it: creation
times are strictly increasing along insertion order (so `messages` is
the ascending index order and `reverse` is descending), times are below
the next assigned one, and no stored title is the empty string (the
title generator never returns one). -/
def Db.Wf (db : Db) : Prop :=
  db.messages.Pairwise (fun a b => a.creationTime < b.creationTime)
  ∧ (∀ m ∈ db.messages, m.creationTime < db.nextTime)
  ∧ (∀ m ∈ db.messages, m.conversationTitle ≠ some "")

/-- The `byConversation` index query: all messages of one conversation,
ascending by creation time. -/
def byConversation (db : Db) (conversationId : String) : List ChatMessage :=
  db.messages.filter (fun m => m.conversationId == conversationId)

/-- Errors thrown by the store's mutations. -/
inductive StoreError where
  | unauthenticated
  | notFoundOrForbidden
  | noUserMessages
deriving DecidableEq

/-! #### Title derivation (`generateTitle`, `generateConversationTitle`) -/

/-- The fixed ordered keyword list of `generateTitle`. -/
def keywords : List String :=
  ["help", "question", "explain", "how", "what", "why", "code", "programming",
   "design", "business", "writing", "analysis", "research", "learning"]

/-- JS `s.charAt(0).toUpperCase() + s.slice(1)`. -/
def capitalize (s : String) : String :=
  match s.toList with
  | [] => s
  | c :: rest => (Char.toUpper c :: rest).asString

/-- The `generateTitle` internal action: lower-case the prompt, collect
every keyword it contains (in list order) and use the first; otherwise
try the three fallback substring groups; otherwise "General Discussion". -/
def generateTitle (prompt : String) : String :=
  let message := strToLower prompt
  let foundKeywords := keywords.filter (fun k => strIncludes message k)
  match foundKeywords.head? with
  | some primaryKeyword => capitalize primaryKeyword ++ " Discussion"
  | none =>
    if strIncludes message "create" || strIncludes message "build" ||
        strIncludes message "make" then "Project Creation"
    else if strIncludes message "fix" || strIncludes message "debug" ||
        strIncludes message "error" then "Problem Solving"
    else if strIncludes message "learn" || strIncludes message "teach" ||
        strIncludes message "tutorial" then "Learning Session"
    else "General Discussion"

/-- JS whitespace test used by `trim`. -/
def isWsChar (c : Char) : Bool :=
  c == ' ' || c == '\t' || c == '\n' || c == '\r'

/-- JS `s.trim()`. -/
def jsTrim (s : String) : String :=
  ((s.toList.dropWhile isWsChar).reverse.dropWhile isWsChar).reverse.asString

/-- JS `s.replace(/[.!?]$/, "")`: removes exactly one trailing `.`,
`!` or `?`, when present. -/
def stripTrailingPunct (s : String) : String :=
  match s.toList.getLast? with
  | some c =>
    if c == '.' || c == '!' || c == '?' then s.toList.dropLast.asString else s
  | none => s

/-- JS `t.length > 50 ? t.substring(0, 47) + "..." : t`. -/
def truncate50 (s : String) : String :=
  if s.length > 50 then (s.toList.take 47).asString ++ "..." else s

/-- The cleanup in `generateConversationTitle`: trim with empty-string
fallback, truncate to 50 with ellipsis, strip one trailing punctuation
mark, and fall back to "New Conversation" if the result is empty. -/
def cleanupTitle (title : String) : String :=
  let cleanTitle := jsOrStr (some (jsTrim title)) "New Conversation"
  let finalTitle := truncate50 cleanTitle
  let finalTitle := stripTrailingPunct finalTitle
  jsOrStr (some finalTitle) "New Conversation"

/-- `generateConversationTitle`: runs the `generateTitle` action and
cleans its result; any failure of the action is caught and replaced by
the literal "New Conversation".  The argument is the action call's
outcome (the only thing in the `try` that can throw). -/
def generateConversationTitle (actionResult : Except Unit String) : String :=
  match actionResult with
  | .ok title => cleanupTitle title
  | .error _ => "New Conversation"

/-- The prompt `generateConversationTitle` passes to the action. -/
def titlePrompt (userMessage : String) : String :=
  "Generate a title for this conversation: " ++ userMessage

/-- The title the store derives from a user message when the action call
itself succeeds (its pure success path). -/
def conversationTitleFor (userMessage : String) : String :=
  generateConversationTitle (Except.ok (generateTitle (titlePrompt userMessage)))

/-! #### Mutations and queries -/

/-- JS truthiness of an optional title: present and non-empty. -/
def titleTruthy : Option String → Bool
  | some s => s != ""
  | none => false

/-- `existingMessages.find(msg => msg.conversationTitle)?.conversationTitle`:
the title of the first prior message carrying a truthy title, if any. -/
def titleFromExisting (existing : List ChatMessage) : Option String :=
  (existing.find? (fun m => titleTruthy m.conversationTitle)).bind
    (fun m => m.conversationTitle)

/-- Arguments of the `saveMessage` mutation. -/
structure SaveArgs where
  role : Role
  content : String
  conversationId : String
  model : String
  tokensUsed : Option Nat := none
  responseTime : Option Nat := none
  metadata : Option MessageMetadata := none

/-- The row `saveMessage` inserts, given the computed title. -/
def insertedMessage (db : Db) (userId : Nat) (args : SaveArgs)
    (conversationTitle : Option String) : ChatMessage :=
  { id := db.nextId, userId := userId, role := args.role, content := args.content
    conversationId := args.conversationId, conversationTitle := conversationTitle
    model := args.model, tokensUsed := args.tokensUsed
    responseTime := args.responseTime, metadata := args.metadata
    creationTime := db.nextTime }

/-- The `saveMessage` mutation.  `user` is the resolved current user
(`none` when unauthenticated).  For a user message with no prior
messages in the conversation it derives a fresh title; otherwise it
copies the first truthy title found among the conversation's
messages.  Returns the new message id and the updated store. -/
def saveMessage (user : Option Nat) (db : Db) (args : SaveArgs) :
    Except StoreError Nat × Db :=
  match user with
  | none => (Except.error StoreError.unauthenticated, db)
  | some userId =>
    let existingMessages := byConversation db args.conversationId
    let conversationTitle : Option String :=
      match args.role with
      | Role.user =>
        if existingMessages.length = 0 then
          some (conversationTitleFor args.content)
        else
          titleFromExisting existingMessages
      | Role.assistant => titleFromExisting existingMessages
    let message := insertedMessage db userId args conversationTitle
    (Except.ok db.nextId,
     { messages := db.messages ++ [message]
       nextId := db.nextId + 1
       nextTime := db.nextTime + 1 })

/-- The claim's reading of `saveMessage`: unauthenticated fails; the
first user-role message of a conversation (zero prior messages under
the id) derives a title; every other message copies forward a title
already present on a prior message of the conversation, if one exists,
else leaves the title unset. -/
def saveMessageSpec (user : Option Nat) (db : Db) (args : SaveArgs) :
    Except StoreError Nat × Db :=
  match user with
  | none => (Except.error StoreError.unauthenticated, db)
  | some userId =>
    let prior := byConversation db args.conversationId
    let conversationTitle : Option String :=
      if args.role = Role.user ∧ prior = [] then
        some (conversationTitleFor args.content)
      else titleFromExisting prior
    let message := insertedMessage db userId args conversationTitle
    (Except.ok db.nextId,
     { messages := db.messages ++ [message]
       nextId := db.nextId + 1
       nextTime := db.nextTime + 1 })

/-- One summary row of `getUserConversations`. -/
structure ConversationSummary where
  conversationId : String
  lastMessage : ChatMessage
  messageCount : Nat
  createdAt : Nat
deriving DecidableEq

/-- The `conversationsMap.get(id)!.messageCount++` update: increments
the count of the summary keyed by `cid` (summary keys are distinct, so
mapping over the list touches exactly the map's entry). -/
def bumpCount (cid : String) (s : ConversationSummary) : ConversationSummary :=
  if s.conversationId == cid then { s with messageCount := s.messageCount + 1 }
  else s

/-- The summary created when a conversation id is first seen during the
newest-first scan: the message just seen becomes `lastMessage`, its
creation time becomes `createdAt`, and the immediate `messageCount++`
makes the count 1. -/
def newSummary (message : ChatMessage) : ConversationSummary :=
  { conversationId := message.conversationId, lastMessage := message
    messageCount := 1, createdAt := message.creationTime }

/-- One step of the grouping loop of `getUserConversations`. -/
def addMessageToMap (acc : List ConversationSummary) (message : ChatMessage) :
    List ConversationSummary :=
  if acc.any (fun s => s.conversationId == message.conversationId) then
    acc.map (bumpCount message.conversationId)
  else
    acc ++ [newSummary message]

/-- The `getUserConversations` query: scan the caller's messages newest
first, group by conversation id, then sort the summaries by `createdAt`
descending (JS `sort((a, b) => b.createdAt - a.createdAt)`, a stable
sort, modeled by `mergeSort`). -/
def getUserConversations (user : Option Nat) (db : Db) :
    List ConversationSummary :=
  match user with
  | none => []
  | some userId =>
    let messages := (db.messages.filter (fun m => m.userId == userId)).reverse
    let groups := messages.foldl addMessageToMap []
    groups.mergeSort (fun a b => decide (b.createdAt ≤ a.createdAt))

/-- The `deleteConversation` mutation: requires an authenticated caller
owning at least one message under the id, then deletes every message of
the conversation and returns how many rows the conversation had. -/
def deleteConversation (user : Option Nat) (db : Db) (conversationId : String) :
    Except StoreError Nat × Db :=
  match user with
  | none => (Except.error StoreError.unauthenticated, db)
  | some userId =>
    let messages := byConversation db conversationId
    let userMessages := messages.filter (fun m => m.userId == userId)
    if userMessages.length = 0 then
      (Except.error StoreError.notFoundOrForbidden, db)
    else
      (Except.ok messages.length,
       { db with messages :=
           db.messages.filter (fun m => !(m.conversationId == conversationId)) })

/-- The first user-role message of a conversation in ascending creation
order (`order("asc").take(1)` over the role-filtered index query). -/
def firstUserMessage (db : Db) (conversationId : String) : Option ChatMessage :=
  ((byConversation db conversationId).filter (fun m => m.role == Role.user)).head?

/-- The `regenerateConversationTitle` mutation: recompute the title from
the first user message and stamp it onto every message of the
conversation. -/
def regenerateConversationTitle (user : Option Nat) (db : Db)
    (conversationId : String) : Except StoreError String × Db :=
  match user with
  | none => (Except.error StoreError.unauthenticated, db)
  | some _ =>
    match firstUserMessage db conversationId with
    | none => (Except.error StoreError.noUserMessages, db)
    | some firstMessage =>
      let newTitle := conversationTitleFor firstMessage.content
      (Except.ok newTitle,
       { db with messages := db.messages.map (fun m =>
           if m.conversationId == conversationId then
             { m with conversationTitle := some newTitle }
           else m) })

/-! ### Claim-side definitions (transcribed from the specification's
wording, for comparison with the source embedding) -/

/-- Error classification in the priority order stated by the spec:
credential message, model message, rate-limit signal (message text
**or** HTTP 429), timeout, HTTP 401, generic. -/
def claimClassify (e : JsError) : String :=
  let msg := e.message.getD ""
  if strIncludes msg "API key" then authConfigMsg
  else if strIncludes msg "model" then modelConfigMsg
  else if strIncludes msg "rate limit" || e.status = some 429 then rateLimitMsg
  else if strIncludes msg "timeout" then timeoutMsg
  else if e.status = some 401 then authFailedMsg
  else genericErrorMsg

/-- Token extraction in the probe order stated by the spec: (a) the
direct usage object on the response, (b) a nested usage object under the
provider metadata, (c) the legacy callback-style usage field, (d) the
token-key scan. -/
def claimOrderExtract (response : ModelResponse) : TokenUsage :=
  match response.usage with
  | some u => usageFromDirect u
  | none =>
    match response.response_metadata.bind (fun md => md.usage_metadata) with
    | some um => usageFromUsageMetadata um
    | none =>
      match response.response_metadata.bind (fun md => md.tokenUsage) with
      | some tu => usageFromTokenUsage tu
      | none =>
        match response.llmOutput.bind (fun lo => lo.tokenUsage) with
        | some tu => usageFromTokenUsage tu
        | none => scanEntries response.entries

/-- The amended probe order as an explicit chain of extractors tried in
priority order: `response_metadata.usage_metadata`, then
`response_metadata.tokenUsage`, then `llmOutput.tokenUsage`, then the
direct `usage` object, then the token-key scan. -/
def chainedExtract (response : ModelResponse) : TokenUsage :=
  match (response.response_metadata.bind (fun md => md.usage_metadata)).map usageFromUsageMetadata with
  | some u => u
  | none =>
    match (response.response_metadata.bind (fun md => md.tokenUsage)).map usageFromTokenUsage with
    | some u => u
    | none =>
      match (response.llmOutput.bind (fun lo => lo.tokenUsage)).map usageFromTokenUsage with
      | some u => u
      | none =>
        match response.usage.map usageFromDirect with
        | some u => u
        | none => scanEntries response.entries

/-- Title derivation in the claim's wording: the first keyword of the
fixed list found as a substring of the lower-cased message wins, then
the three fallback groups in order, then "General Discussion". -/
def claimKeywordTitle (s : String) : String :=
  let message := strToLower s
  match keywords.find? (fun k => strIncludes message k) with
  | some k => capitalize k ++ " Discussion"
  | none =>
    if strIncludes message "create" || strIncludes message "build" ||
        strIncludes message "make" then "Project Creation"
    else if strIncludes message "fix" || strIncludes message "debug" ||
        strIncludes message "error" then "Problem Solving"
    else if strIncludes message "learn" || strIncludes message "teach" ||
        strIncludes message "tutorial" then "Learning Session"
    else "General Discussion"

/-! ### Concrete fixtures used by counterexamples and witnesses -/

/-- A failing upstream call with no usable message or status. -/
def plainFailEnv : ChainEnv :=
  { hasApiKey := true
    firstCall := Except.error { }
    fallbackCall := Except.error { }
    elapsedAtResponse := 0
    elapsedAtCatch := 5 }

/-- Route environment around `plainFailEnv`. -/
def c1FailRouteEnv : RouteEnv :=
  { chain := plainFailEnv, modelName := "gpt-4.1-nano-2025-04-14", now := 7 }

/-- A request with non-empty input and a conversation id. -/
def c1Body : RequestBody :=
  { input := some "hello", conversationId := some "c1" }

/-- A successful provider response carrying streaming-style usage
metadata. -/
def usageMetadataResponse : ModelResponse :=
  { content := "hi there"
    response_metadata := some
      { usage_metadata := some
          { input_tokens := some 12, output_tokens := some 34, total_tokens := some 46 }
        finish_reason := some "stop" } }

/-- A successful upstream environment built on `usageMetadataResponse`. -/
def okChainEnv : ChainEnv :=
  { hasApiKey := true
    firstCall := Except.ok usageMetadataResponse
    fallbackCall := Except.error { }
    elapsedAtResponse := 42
    elapsedAtCatch := 0 }

/-- Route environment around `okChainEnv`. -/
def c1OkRouteEnv : RouteEnv :=
  { chain := okChainEnv, modelName := "gpt-4.1-nano-2025-04-14", now := 9 }

/-- An error that mentions a timeout and carries HTTP status 429. -/
def timeout429Err : JsError :=
  { message := some "timeout", status := some 429 }

/-- Upstream failure with `timeout429Err`. -/
def c2Env : ChainEnv :=
  { hasApiKey := true
    firstCall := Except.error timeout429Err
    fallbackCall := Except.error { }
    elapsedAtResponse := 0
    elapsedAtCatch := 17 }

/-- A successful provider response with no usage field anywhere. -/
def noUsageResponse : ModelResponse :=
  { content := "answer" }

/-- A run in which the LangChain call succeeds but yields no token data,
and the direct OpenAI fallback call succeeds. -/
def c3Env : ChainEnv :=
  { hasApiKey := true
    firstCall := Except.ok noUsageResponse
    fallbackCall := Except.ok (some
      { prompt_tokens := some 3, completion_tokens := some 4, total_tokens := some 7 })
    elapsedAtResponse := 11
    elapsedAtCatch := 0 }

/-- A response carrying **both** a direct usage object (1/2/3) and
nested `response_metadata.usage_metadata` (12/34/46). -/
def bothUsageResponse : ModelResponse :=
  { content := ""
    usage := some
      { prompt_tokens := some 1, completion_tokens := some 2, total_tokens := some 3 }
    response_metadata := some
      { usage_metadata := some
          { input_tokens := some 12, output_tokens := some 34, total_tokens := some 46 } } }

/-- A store with one message of user 1 in conversation "c" and one
foreign message of user 2 under the same id. -/
def c8Db : Db :=
  { messages :=
      [{ id := 0, userId := 1, role := Role.user, content := "hi"
         conversationId := "c", creationTime := 0 },
       { id := 1, userId := 2, role := Role.user, content := "stray"
         conversationId := "c", creationTime := 1 }]
    nextId := 2, nextTime := 2 }

/-- A conversation whose first user message is "help me fix a bug",
followed by an assistant reply. -/
def c7Db : Db :=
  { messages :=
      [{ id := 0, userId := 1, role := Role.user, content := "help me fix a bug"
         conversationId := "c", creationTime := 0 },
       { id := 1, userId := 1, role := Role.assistant, content := "sure"
         conversationId := "c", creationTime := 1 }]
    nextId := 2, nextTime := 2 }

/-- Well-formedness is decidable, so concrete stores can be checked by
evaluation. -/
instance (db : Db) : Decidable (Db.Wf db) := by
  unfold Db.Wf
  infer_instance

/-- Invariant of the grouping loop of `getUserConversations` after
consuming the scan segment `processed`: the accumulated summaries are
keyed by distinct conversation ids covering exactly the ids seen so
far, and each summary holds the **first** processed message of its
conversation (the scan order is newest-first) as `lastMessage`, that
message's creation time as `createdAt`, and the running occurrence
count. -/
def GoodAcc (processed : List ChatMessage) (acc : List ConversationSummary) : Prop :=
  (acc.map (fun s => s.conversationId)).Nodup
  ∧ (∀ cid, (∃ s ∈ acc, s.conversationId = cid)
      ↔ ∃ m ∈ processed, m.conversationId = cid)
  ∧ (∀ s ∈ acc,
      processed.find? (fun m => m.conversationId == s.conversationId) = some s.lastMessage
      ∧ s.createdAt = s.lastMessage.creationTime
      ∧ s.messageCount
        = (processed.filter (fun m => m.conversationId == s.conversationId)).length)

/-- A store for two conversations of user 1: conversation "a" was
started first but "b" has the most recent activity. -/
def c9Db : Db :=
  { messages :=
      [{ id := 0, userId := 1, role := Role.user, content := "first a"
         conversationId := "a", creationTime := 0 },
       { id := 1, userId := 1, role := Role.user, content := "first b"
         conversationId := "b", creationTime := 1 },
       { id := 2, userId := 1, role := Role.assistant, content := "reply a"
         conversationId := "a", creationTime := 2 },
       { id := 3, userId := 1, role := Role.assistant, content := "reply b"
         conversationId := "b", creationTime := 3 }]
    nextId := 4, nextTime := 4 }

/-! ### Shared lemmas -/

/-- The head of a filtered list is the first element satisfying the
predicate. -/
theorem head?_filter {α : Type} (p : α → Bool) (l : List α) :
    (l.filter p).head? = l.find? p := by
  induction l with
  | nil => rfl
  | cons a t ih =>
    cases h : p a <;> simp [List.filter_cons, List.find?_cons, h, ih]

/-- Every provider call made by `generateCompletionWithTokens` carries
the handler's (enhanced) input as its human-message content. -/
theorem callInput_of_mem_calls (env : ChainEnv) (input : String) :
    ∀ c ∈ (generateCompletionWithTokens env input).2, c.callInput = input := by
  intro c hc
  obtain ⟨key, first, fb, eok, ecatch⟩ := env
  cases key with
  | false => simp [generateCompletionWithTokens] at hc
  | true =>
    cases first with
    | error e =>
      simp [generateCompletionWithTokens] at hc
      subst hc; rfl
    | ok r =>
      by_cases h : (extractTokenUsage r).totalTokens = 0
      · cases fb with
        | ok u =>
          simp [generateCompletionWithTokens, h] at hc
          rcases hc with hc | hc <;> subst hc <;> rfl
        | error e =>
          simp [generateCompletionWithTokens, h] at hc
          rcases hc with hc | hc <;> subst hc <;> rfl
      · simp [generateCompletionWithTokens, h] at hc
        subst hc; rfl

/-- Split of a list's length into matching and non-matching parts. -/
theorem length_filter_add_length_filter_not {α : Type} (l : List α) (p : α → Bool) :
    (l.filter p).length + (l.filter (fun a => !p a)).length = l.length := by
  induction l with
  | nil => rfl
  | cons a t ih =>
    cases h : p a <;> simp [List.filter_cons, h] <;> omega

/-- In a `Pairwise R` list, `find?` returns an element related by `R` to
every later match: any other element satisfying the predicate is the
found one or comes after it. -/
theorem find?_pairwise_rel {α : Type} {R : α → α → Prop} :
    ∀ (l : List α), l.Pairwise R → ∀ (p : α → Bool) (a : α), l.find? p = some a →
      ∀ b ∈ l, p b = true → b = a ∨ R a b := by
  intro l
  induction l with
  | nil => intro _ p a hf; simp at hf
  | cons x t ih =>
    intro hp p a hf b hb hpb
    rw [List.pairwise_cons] at hp
    rw [List.find?_cons] at hf
    cases hx : p x with
    | true =>
      rw [hx] at hf
      simp at hf
      subst hf
      rcases List.mem_cons.mp hb with rfl | hbt
      · exact Or.inl rfl
      · exact Or.inr (hp.1 b hbt)
    | false =>
      rw [hx] at hf
      simp at hf
      rcases List.mem_cons.mp hb with rfl | hbt
      · rw [hpb] at hx; cases hx
      · exact ih hp.2 p a hf b hbt hpb

/-! ### C2 — error classification of the completion client -/

/-- C2 (counterexample): for a caught error whose message contains
"timeout" and whose HTTP status is 429, the code returns the timeout
message, while the claim's priority order (rate-limit by message text
**or** HTTP 429 before timeout) selects the rate-limit message; the two
disagree, so the claim's stated order is not the code's. -/
theorem c2_counterexample :
    (generateCompletionWithTokens c2Env "hello").1.text = timeoutMsg
    ∧ claimClassify timeout429Err = rateLimitMsg
    ∧ timeoutMsg ≠ rateLimitMsg
    ∧ timeoutMsg ≠ tooManyRequestsMsg := by decide

/-- C2 (amended): `generateCompletionWithTokens` never throws; on any
failure (missing API key, or a thrown upstream error) it returns the
structured `errorResult`: the message selected by the **code's**
priority order (credential → model → rate-limit message text → timeout
→ HTTP 429 → HTTP 401 → generic), all token counts zero,
`finishReason = "error"`, and `responseTime` the wall-clock span
measured in the catch block. -/
theorem c2_amended (env : ChainEnv) (input : String) :
    (env.hasApiKey = false →
      (generateCompletionWithTokens env input).1
        = errorResult { message := some apiKeyMissingMsg } env.elapsedAtCatch)
    ∧ (∀ e, env.firstCall = Except.error e → env.hasApiKey = true →
      (generateCompletionWithTokens env input).1 = errorResult e env.elapsedAtCatch)
    ∧ (∀ e t, errorResult e t =
        { text := classifyError e, tokensUsed := 0, inputTokens := 0, outputTokens := 0
          responseTime := t, finishReason := "error" }) := by
  refine ⟨fun h => ?_, fun e he hk => ?_, fun e t => rfl⟩
  · simp [generateCompletionWithTokens, h]
  · simp [generateCompletionWithTokens, hk, he]

/-- C2 (witness): the amended statement applied to the concrete
timeout-and-429 environment. -/
theorem c2_amended_witness :
    (generateCompletionWithTokens c2Env "hello").1 = errorResult timeout429Err 17 :=
  (c2_amended c2Env "hello").2.1 timeout429Err rfl rfl

/-! ### C3 — number of outbound provider calls -/

/-- C3 (counterexample): an execution in which the LangChain call
succeeds but exposes no token usage makes **two** outbound provider
calls — the chain call and the direct OpenAI fallback call — refuting
"the provider is never invoked twice". -/
theorem c3_counterexample :
    (generateCompletionWithTokens c3Env "ping").2
      = [ProviderCall.chain "ping", ProviderCall.direct "ping"]
    ∧ (generateCompletionWithTokens c3Env "ping").2.length = 2 := by decide

/-- C3 (amended): per execution the provider is invoked at most twice;
no call is made when the API key is missing; after a thrown first call
there is no retry (at most the one call); and two calls happen exactly
when the first call succeeds but token extraction yields a zero total,
the second being the token-recovery fallback. -/
theorem c3_amended (env : ChainEnv) (input : String) :
    (generateCompletionWithTokens env input).2.length ≤ 2
    ∧ (env.hasApiKey = false → (generateCompletionWithTokens env input).2 = [])
    ∧ (∀ e, env.firstCall = Except.error e →
        (generateCompletionWithTokens env input).2.length ≤ 1)
    ∧ ((generateCompletionWithTokens env input).2.length = 2 →
        ∃ r, env.firstCall = Except.ok r ∧ (extractTokenUsage r).totalTokens = 0) := by
  obtain ⟨key, first, fb, eok, ecatch⟩ := env
  cases key with
  | false =>
    refine ⟨by simp [generateCompletionWithTokens], fun _ => by simp [generateCompletionWithTokens],
      fun e he => by simp [generateCompletionWithTokens], fun h => ?_⟩
    simp [generateCompletionWithTokens] at h
  | true =>
    cases first with
    | error e =>
      refine ⟨by simp [generateCompletionWithTokens], by simp, fun e' he' => by
        simp [generateCompletionWithTokens], fun h => ?_⟩
      simp [generateCompletionWithTokens] at h
    | ok r =>
      by_cases h : (extractTokenUsage r).totalTokens = 0
      · cases fb with
        | ok u =>
          exact ⟨by simp [generateCompletionWithTokens, h], by simp,
            fun e' he' => by simp at he', fun _ => ⟨r, rfl, h⟩⟩
        | error e =>
          exact ⟨by simp [generateCompletionWithTokens, h], by simp,
            fun e' he' => by simp at he', fun _ => ⟨r, rfl, h⟩⟩
      · refine ⟨by simp [generateCompletionWithTokens, h], by simp,
          fun e' he' => by simp at he', fun hl => ?_⟩
        simp [generateCompletionWithTokens, h] at hl

/-- C3 (witness): the amended bound applied to the two-call execution. -/
theorem c3_amended_witness :
    (generateCompletionWithTokens c3Env "ping").2.length ≤ 2 :=
  (c3_amended c3Env "ping").1

/-! ### C4 — token-usage extraction order -/

/-- C4 (counterexample): on a response carrying both a direct `usage`
object (1/2/3) and `response_metadata.usage_metadata` (12/34/46), the
code returns the metadata numbers, while the claim's probe order
(direct usage first) returns the direct numbers — so the claimed order
is not the code's. -/
theorem c4_counterexample :
    extractTokenUsage bothUsageResponse
      = { inputTokens := 12, outputTokens := 34, totalTokens := 46 }
    ∧ claimOrderExtract bothUsageResponse
      = { inputTokens := 1, outputTokens := 2, totalTokens := 3 }
    ∧ ({ inputTokens := 12, outputTokens := 34, totalTokens := 46 } : TokenUsage)
      ≠ { inputTokens := 1, outputTokens := 2, totalTokens := 3 } := by decide

/-- C4 (amended): extraction is an ordered chain probing
`response_metadata.usage_metadata`, then `response_metadata.tokenUsage`,
then `llmOutput.tokenUsage`, then the direct `usage` object, then the
token-key scan; a response exposing usage only at
`response_metadata.usage_metadata` (12/34/46) yields 12/34/46, and a
response with no usage-shaped field yields all zeros without throwing. -/
theorem c4_amended :
    (∀ r, extractTokenUsage r = chainedExtract r)
    ∧ extractTokenUsage usageMetadataResponse
      = { inputTokens := 12, outputTokens := 34, totalTokens := 46 }
    ∧ extractTokenUsage noUsageResponse
      = { inputTokens := 0, outputTokens := 0, totalTokens := 0 } := by
  refine ⟨fun r => ?_, by decide, by decide⟩
  obtain ⟨c, md, lo, u, es⟩ := r
  rcases md with _ | ⟨_ | um, _ | tu, fr⟩ <;>
    rcases lo with _ | ⟨_ | ltu⟩ <;>
      rcases u with _ | u <;> rfl

/-! ### C1 — synchronous endpoint status/finishReason contract -/

/-- C1 (counterexample): a non-empty input whose upstream call fails is
answered with HTTP **200** and a body whose `finishReason` is
`"error"` — the completion client swallows the failure, so the route's
500 branch is not taken and the claimed dichotomy (200 only with
`finishReason ≠ "error"`) fails. -/
theorem c1_counterexample :
    parsedInput c1Body = "hello"
    ∧ (syncChatPOST c1FailRouteEnv c1Body).1.status = 200
    ∧ finishReasonOf (syncChatPOST c1FailRouteEnv c1Body).1 = some "error" := by decide

/-- C1 (amended): for every non-empty input the synchronous endpoint
returns HTTP 200; when the upstream interaction fails the 200 body has
`finishReason = "error"`, all token counts `0`, and `responseTime` the
measured elapsed time (not `0`); when the upstream call succeeds and the
provider did not itself report `finish_reason = "error"`, the body's
`finishReason` is not `"error"`.  The route's 500 branch would require
`generateCompletionWithTokens` to throw, which it never does. -/
theorem c1_amended (env : RouteEnv) (body : RequestBody)
    (h : parsedInput body ≠ "") :
    (syncChatPOST env body).1.status = 200
    ∧ (upstreamFailed env.chain = true →
        okBodyOf (syncChatPOST env body).1 = some
          { text := classifyError (caughtError env.chain)
            conversationId := parsedConversationId body
            timestamp := env.now
            model := env.modelName
            tokensUsed := 0, inputTokens := 0, outputTokens := 0
            responseTime := env.chain.elapsedAtCatch
            finishReason := "error" })
    ∧ (upstreamFailed env.chain = false →
        providerReportedFinish env.chain ≠ some "error" →
        finishReasonOf (syncChatPOST env body).1 ≠ some "error") := by
  obtain ⟨⟨key, first, fb, eok, ecatch⟩, modelName, now⟩ := env
  refine ⟨by simp [syncChatPOST, h], fun hf => ?_, fun hs hfr => ?_⟩
  · cases key with
    | false =>
      simp [syncChatPOST, h, generateCompletionWithTokens, okBodyOf,
        caughtError, errorResult]
    | true =>
      cases first with
      | error e =>
        simp [syncChatPOST, h, generateCompletionWithTokens, okBodyOf,
          caughtError, errorResult]
      | ok r => simp [upstreamFailed] at hf
  · cases key with
    | false => simp [upstreamFailed] at hs
    | true =>
      cases first with
      | error e => simp [upstreamFailed] at hs
      | ok r =>
        simp only [providerReportedFinish] at hfr
        have hne : jsOrStr (r.response_metadata.bind (fun md => md.finish_reason)) "stop"
            ≠ "error" := by
          cases hx : r.response_metadata.bind (fun md => md.finish_reason) with
          | none => simp [jsOrStr]
          | some s =>
            rw [hx] at hfr
            by_cases hs : s = ""
            · simp [jsOrStr, hs]
            · simp only [jsOrStr, if_neg hs]
              intro hcontra
              exact hfr (by rw [hcontra])
        by_cases ht : (extractTokenUsage r).totalTokens = 0
        · cases fb with
          | ok u =>
            simp [syncChatPOST, h, generateCompletionWithTokens, ht, finishReasonOf]
            exact hne
          | error e =>
            simp [syncChatPOST, h, generateCompletionWithTokens, ht, finishReasonOf]
            exact hne
        · simp [syncChatPOST, h, generateCompletionWithTokens, ht, finishReasonOf]
          exact hne

/-- C1 (witness): the amended statement applied to a concrete successful
request. -/
theorem c1_amended_witness :
    (syncChatPOST c1OkRouteEnv c1Body).1.status = 200 :=
  (c1_amended c1OkRouteEnv c1Body (by decide)).1

/-! ### C10 — conversation-context prefixing on both endpoints -/

/-- C10 (confirmed): with an empty conversation id the input is passed
unchanged; with a non-empty one both endpoints send
`"[Conversation: <id>]\n" ++ input` upstream, which differs from the
request's input; every provider call of the synchronous route and the
stream's upstream prompt use exactly this enhanced input. -/
theorem c10_conversationPrefix (input conversationId : String) :
    (enhanceInput "" input = input)
    ∧ (conversationId ≠ "" →
        enhanceInput conversationId input
          = "[Conversation: " ++ conversationId ++ "]\n" ++ input
        ∧ enhanceInput conversationId input ≠ input)
    ∧ (∀ env : RouteEnv, input ≠ "" →
        ∀ c ∈ (syncChatPOST env
            { input := some input, conversationId := some conversationId }).2,
          c.callInput = enhanceInput conversationId input)
    ∧ (input ≠ "" →
        streamChatPOST { input := some input, conversationId := some conversationId }
          = StreamResponse.stream (enhanceInput conversationId input) conversationId) := by
  refine ⟨by simp [enhanceInput], fun h => ⟨by simp [enhanceInput, h], fun heq => ?_⟩,
    fun env h c hc => ?_, fun h => ?_⟩
  · rw [enhanceInput, if_neg h] at heq
    have hlen := congrArg String.length heq
    simp only [String.length_append] at hlen
    have h15 : ("[Conversation: " : String).length = 15 := by decide
    have h2 : ("]\n" : String).length = 2 := by decide
    omega
  · simp only [syncChatPOST, parsedInput, parsedConversationId, Option.getD] at hc
    rw [if_neg h] at hc
    exact callInput_of_mem_calls env.chain (enhanceInput conversationId input) c hc
  · simp [streamChatPOST, parsedInput, parsedConversationId, h]

/-- C10 (witness): the prefixing fact at a concrete id and input. -/
theorem c10_witness :
    enhanceInput "c42" "hi" = "[Conversation: " ++ "c42" ++ "]\n" ++ "hi" :=
  ((c10_conversationPrefix "hi" "c42").2.1 (by decide)).1

/-! ### C5 — saveMessage titling behavior -/

/-- C5 (confirmed): `saveMessage` agrees with the claim's description on
every input — unauthenticated callers fail, the first message of a
conversation (when it is user-role) gets a freshly derived title, and
every other message copies forward the first truthy title among the
conversation's prior messages, staying unset when there is none. -/
theorem c5_saveMessage (user : Option Nat) (db : Db) (args : SaveArgs) :
    saveMessage user db args = saveMessageSpec user db args
    ∧ saveMessage none db args = (Except.error StoreError.unauthenticated, db) := by
  refine ⟨?_, rfl⟩
  cases user with
  | none => rfl
  | some uid =>
    obtain ⟨role, content, conversationId, model, tk, rt, md⟩ := args
    cases role with
    | user =>
      by_cases he : byConversation db conversationId = []
      · simp [saveMessage, saveMessageSpec, he]
      · have hlen : (byConversation db conversationId).length ≠ 0 := by
          simpa [List.length_eq_zero] using he
        simp [saveMessage, saveMessageSpec, he, hlen]
    | assistant => simp [saveMessage, saveMessageSpec]

/-! ### C6 — title derivation algorithm -/

/-- The length of `asString` is the length of the character list. -/
theorem length_asString (l : List Char) : (l.asString).length = l.length := rfl

/-- Truncation bounds the title at 50 characters. -/
theorem length_truncate50 (s : String) : (truncate50 s).length ≤ 50 := by
  unfold truncate50
  by_cases h : s.length > 50
  · rw [if_pos h]
    rw [String.length_append, length_asString, List.length_take]
    have : ("..." : String).length = 3 := rfl
    omega
  · rw [if_neg h]
    omega

/-- Stripping trailing punctuation never lengthens a string. -/
theorem length_stripTrailingPunct_le (s : String) :
    (stripTrailingPunct s).length ≤ s.length := by
  unfold stripTrailingPunct
  cases hl : s.toList.getLast? with
  | none => exact Nat.le_refl _
  | some c =>
    dsimp only
    split
    · rw [length_asString, List.length_dropLast]
      have : s.toList.length = s.length := rfl
      omega
    · exact Nat.le_refl _

/-- An empty-string fallback keeps a 50-character bound when both the
value and the default satisfy it. -/
theorem length_jsOrStr_le (x d : String) (hx : x.length ≤ 50) (hd : d.length ≤ 50) :
    (jsOrStr (some x) d).length ≤ 50 := by
  unfold jsOrStr
  dsimp only
  split
  · exact hd
  · exact hx

/-- The cleanup stage always produces a title of at most 50 characters. -/
theorem length_cleanupTitle (t : String) : (cleanupTitle t).length ≤ 50 := by
  have h1 := length_truncate50 (jsOrStr (some (jsTrim t)) "New Conversation")
  have h2 := length_stripTrailingPunct_le
    (truncate50 (jsOrStr (some (jsTrim t)) "New Conversation"))
  exact length_jsOrStr_le _ _ (le_trans h2 h1) (by decide)

/-- C6 (confirmed): `generateTitle` picks the first keyword of the fixed
list (in list order) contained in the lower-cased message, else the
three fallback groups in order, else "General Discussion"; the cleanup
keeps the final title at 50 characters or fewer and is the
trim → truncate-with-ellipsis → strip-one-trailing-punctuation pipeline
with "New Conversation" substituted for empty results; a failed
derivation action yields the literal "New Conversation". -/
theorem c6_titleDerivation :
    (∀ s, generateTitle s = claimKeywordTitle s)
    ∧ (∀ r : Except Unit String, (generateConversationTitle r).length ≤ 50)
    ∧ (generateConversationTitle (Except.error ()) = "New Conversation")
    ∧ (∀ t, generateConversationTitle (Except.ok t)
        = jsOrStr (some (stripTrailingPunct (truncate50
            (jsOrStr (some (jsTrim t)) "New Conversation")))) "New Conversation") := by
  refine ⟨fun s => ?_, fun r => ?_, rfl, fun t => rfl⟩
  · simp only [generateTitle, claimKeywordTitle, head?_filter]
  · cases r with
    | error e => cases e; decide
    | ok t => exact length_cleanupTitle t

/-! ### C8 — deleteConversation ownership and bulk removal -/

/-- C8 (confirmed): when the authenticated caller owns no message under
the conversation id the mutation fails with `NotFoundOrForbidden` and
the store is unchanged; when the caller owns at least one, every
message sharing the id (whoever owns it) is removed and the returned
count is the conversation's full message count, which together with the
surviving messages accounts for the whole store. -/
theorem c8_deleteConversation (u : Nat) (db : Db) (conversationId : String) :
    ((¬ ∃ m ∈ db.messages, m.conversationId = conversationId ∧ m.userId = u) →
      deleteConversation (some u) db conversationId
        = (Except.error StoreError.notFoundOrForbidden, db))
    ∧ ((∃ m ∈ db.messages, m.conversationId = conversationId ∧ m.userId = u) →
      deleteConversation (some u) db conversationId
        = (Except.ok (byConversation db conversationId).length,
           { db with messages :=
               db.messages.filter (fun m => !(m.conversationId == conversationId)) }))
    ∧ (byConversation db conversationId).length
        + (db.messages.filter (fun m => !(m.conversationId == conversationId))).length
      = db.messages.length := by
  have hiff :
      ((byConversation db conversationId).filter (fun m => m.userId == u)).length = 0
      ↔ ¬ ∃ m ∈ db.messages, m.conversationId = conversationId ∧ m.userId = u := by
    rw [List.length_eq_zero, List.filter_eq_nil_iff]
    constructor
    · rintro h ⟨m, hm, hcid, huid⟩
      exact h m (by simp [byConversation, List.mem_filter, hm, hcid]) (by simp [huid])
    · intro h m hm hpu
      simp only [byConversation, List.mem_filter, beq_iff_eq] at hm
      exact h ⟨m, hm.1, hm.2, by simpa using hpu⟩
  refine ⟨fun h => ?_, fun h => ?_, ?_⟩
  · simp only [deleteConversation]
    rw [if_pos (hiff.mpr h)]
  · simp only [deleteConversation]
    rw [if_neg (fun hc => (hiff.mp hc) h)]
  · exact length_filter_add_length_filter_not db.messages
      (fun m => m.conversationId == conversationId)

/-- C8 (witness): deleting "c" as user 1 removes both messages —
including the foreign one — and returns their total count. -/
theorem c8_witness :
    deleteConversation (some 1) c8Db "c"
      = (Except.ok (byConversation c8Db "c").length,
         { c8Db with messages :=
             c8Db.messages.filter (fun m => !(m.conversationId == "c")) }) :=
  (c8_deleteConversation 1 c8Db "c").2.1 (by decide)

/-! ### C7 — regenerateTitle -/

/-- The head of a `Pairwise R` list is related by `R` to every other
element. -/
theorem head?_pairwise {α : Type} {R : α → α → Prop} (l : List α)
    (hp : l.Pairwise R) (a : α) (h : l.head? = some a) :
    ∀ b ∈ l, b = a ∨ R a b := by
  cases l with
  | nil => cases h
  | cons x t =>
    simp only [List.head?_cons, Option.some.injEq] at h
    subst h
    intro b hb
    rcases List.mem_cons.mp hb with rfl | hbt
    · exact Or.inl rfl
    · exact Or.inr ((List.pairwise_cons.mp hp).1 b hbt)

/-- Membership in the role-filtered conversation query. -/
theorem mem_userFiltered (db : Db) (conversationId : String) (m : ChatMessage) :
    m ∈ (byConversation db conversationId).filter (fun m => m.role == Role.user)
    ↔ m ∈ db.messages ∧ m.conversationId = conversationId ∧ m.role = Role.user := by
  simp only [byConversation, List.mem_filter, beq_iff_eq]
  tauto

/-- C7 (confirmed): `regenerateConversationTitle` (for an authenticated
caller) fails with `NoUserMessages` exactly when the conversation holds
no user-authored message; otherwise it recomputes the title from the
first user message in ascending creation order and stamps it onto every
message of the conversation, leaving other conversations untouched; the
"help me fix a bug" example takes the "help" keyword path. -/
theorem c7_regenerateTitle (u : Nat) (db : Db) (conversationId : String)
    (h : Db.Wf db) :
    ((regenerateConversationTitle (some u) db conversationId).1
        = Except.error StoreError.noUserMessages
      ↔ ¬ ∃ m ∈ db.messages, m.conversationId = conversationId ∧ m.role = Role.user)
    ∧ (firstUserMessage db conversationId = none →
        regenerateConversationTitle (some u) db conversationId
          = (Except.error StoreError.noUserMessages, db))
    ∧ (∀ m₀, firstUserMessage db conversationId = some m₀ →
        m₀ ∈ db.messages ∧ m₀.conversationId = conversationId ∧ m₀.role = Role.user
        ∧ (∀ m ∈ db.messages, m.conversationId = conversationId →
            m.role = Role.user → m₀.creationTime ≤ m.creationTime)
        ∧ regenerateConversationTitle (some u) db conversationId
          = (Except.ok (conversationTitleFor m₀.content),
             { db with messages := db.messages.map (fun m =>
                 if m.conversationId == conversationId then
                   { m with conversationTitle := some (conversationTitleFor m₀.content) }
                 else m) }))
    ∧ conversationTitleFor "help me fix a bug" = "Help Discussion" := by
  have hpLt : ((byConversation db conversationId).filter
      (fun m => m.role == Role.user)).Pairwise
      (fun a b => a.creationTime < b.creationTime) :=
    (h.1.sublist (List.filter_sublist db.messages)).sublist
      (List.filter_sublist (byConversation db conversationId))
  refine ⟨?_, fun hn => ?_, fun m₀ hm₀ => ?_, by decide⟩
  · cases hfm : firstUserMessage db conversationId with
    | none =>
      simp only [regenerateConversationTitle, hfm]
      simp only [firstUserMessage, List.head?_eq_none_iff, List.filter_eq_nil_iff] at hfm
      constructor
      · rintro _ ⟨m, hm, hcid, hrole⟩
        exact hfm m (by simp [byConversation, List.mem_filter, hm, hcid]) (by simp [hrole])
      · intro _; trivial
    | some m₀ =>
      simp only [regenerateConversationTitle, hfm]
      have hmem : m₀ ∈ (byConversation db conversationId).filter
          (fun m => m.role == Role.user) := by
        cases hl : (byConversation db conversationId).filter
            (fun m => m.role == Role.user) with
        | nil => rw [firstUserMessage, hl] at hfm; cases hfm
        | cons x t =>
          rw [firstUserMessage, hl] at hfm
          simp only [List.head?_cons, Option.some.injEq] at hfm
          subst hfm
          exact List.mem_cons_self _ _
      rw [mem_userFiltered] at hmem
      constructor
      · intro hcontra; cases hcontra
      · intro hcontra
        exact absurd ⟨m₀, hmem.1, hmem.2.1, hmem.2.2⟩ hcontra
  · simp only [regenerateConversationTitle, hn]
  · have hmem : m₀ ∈ (byConversation db conversationId).filter
        (fun m => m.role == Role.user) := by
      cases hl : (byConversation db conversationId).filter
          (fun m => m.role == Role.user) with
      | nil => rw [firstUserMessage, hl] at hm₀; cases hm₀
      | cons x t =>
        rw [firstUserMessage, hl] at hm₀
        simp only [List.head?_cons, Option.some.injEq] at hm₀
        subst hm₀
        exact List.mem_cons_self _ _
    have hmem' := (mem_userFiltered db conversationId m₀).mp hmem
    refine ⟨hmem'.1, hmem'.2.1, hmem'.2.2, fun m hm hcid hrole => ?_, ?_⟩
    · have hmL : m ∈ (byConversation db conversationId).filter
          (fun m => m.role == Role.user) :=
        (mem_userFiltered db conversationId m).mpr ⟨hm, hcid, hrole⟩
      rcases head?_pairwise _ hpLt m₀ hm₀ m hmL with rfl | hlt
      · exact Nat.le_refl _
      · exact Nat.le_of_lt hlt
    · simp only [regenerateConversationTitle, hm₀]

/-- C7 (witness): regenerating on the concrete store recomputes the
"help" keyword title, and that title is "Help Discussion". -/
theorem c7_witness :
    (regenerateConversationTitle (some 1) c7Db "c").1
      = Except.ok (conversationTitleFor "help me fix a bug")
    ∧ conversationTitleFor "help me fix a bug" = "Help Discussion" := by
  have h := c7_regenerateTitle 1 c7Db "c" (by decide)
  have h3 := h.2.2.1 (c7Db.messages.get ⟨0, by decide⟩) rfl
  exact ⟨congrArg Prod.fst h3.2.2.2.2, h.2.2.2⟩

/-! ### C9 — listUserConversations -/

/-- Bumping a count never changes a summary's key. -/
theorem cid_bumpCount (cid : String) (s : ConversationSummary) :
    (bumpCount cid s).conversationId = s.conversationId := by
  unfold bumpCount
  split <;> rfl

/-- Bumping counts leaves the key list unchanged. -/
theorem map_cid_bumpCount (cid : String) (acc : List ConversationSummary) :
    (acc.map (bumpCount cid)).map (fun s => s.conversationId)
      = acc.map (fun s => s.conversationId) := by
  rw [List.map_map]
  exact List.map_congr_left (fun s _ => cid_bumpCount cid s)

/-- One grouping step preserves the loop invariant. -/
theorem goodAcc_step (processed : List ChatMessage) (acc : List ConversationSummary)
    (m : ChatMessage) (hg : GoodAcc processed acc) :
    GoodAcc (processed ++ [m]) (addMessageToMap acc m) := by
  obtain ⟨hnodup, hcover, hfacts⟩ := hg
  by_cases hany : acc.any (fun s => s.conversationId == m.conversationId) = true
  · rw [addMessageToMap, if_pos hany]
    obtain ⟨s₀, hs₀, hs₀cid⟩ := List.any_eq_true.mp hany
    rw [beq_iff_eq] at hs₀cid
    have hex : ∃ m' ∈ processed, m'.conversationId = m.conversationId :=
      (hcover m.conversationId).mp ⟨s₀, hs₀, hs₀cid⟩
    refine ⟨?_, ?_, ?_⟩
    · rw [map_cid_bumpCount]
      exact hnodup
    · intro cid
      have hmapiff : (∃ s' ∈ acc.map (bumpCount m.conversationId), s'.conversationId = cid)
          ↔ ∃ s ∈ acc, s.conversationId = cid := by
        constructor
        · rintro ⟨s', hs', hcid⟩
          rw [List.mem_map] at hs'
          obtain ⟨s, hs, rfl⟩ := hs'
          exact ⟨s, hs, by rwa [cid_bumpCount] at hcid⟩
        · rintro ⟨s, hs, hcid⟩
          exact ⟨bumpCount m.conversationId s, List.mem_map_of_mem _ hs,
            by rwa [cid_bumpCount]⟩
      rw [hmapiff, hcover cid]
      constructor
      · rintro ⟨m', hm', hcid⟩
        exact ⟨m', List.mem_append_left _ hm', hcid⟩
      · rintro ⟨m', hm', hcid⟩
        rcases List.mem_append.mp hm' with hmp | hmm
        · exact ⟨m', hmp, hcid⟩
        · rw [List.mem_singleton] at hmm
          subst hmm
          obtain ⟨m'', hm'', hm''cid⟩ := hex
          exact ⟨m'', hm'', by rw [hm''cid, hcid]⟩
    · intro s' hs'
      rw [List.mem_map] at hs'
      obtain ⟨s, hs, rfl⟩ := hs'
      obtain ⟨hfind, hcreated, hcount⟩ := hfacts s hs
      by_cases hc : s.conversationId = m.conversationId
      · have hbump : bumpCount m.conversationId s
            = { s with messageCount := s.messageCount + 1 } := by
          unfold bumpCount
          rw [if_pos (by rwa [beq_iff_eq])]
        rw [hbump]
        refine ⟨?_, hcreated, ?_⟩
        · rw [List.find?_append, hfind, Option.or_some]
        · have hfm : [m].filter
              (fun m' => m'.conversationId == s.conversationId) = [m] := by
            simp [List.filter_cons, beq_iff_eq, hc.symm]
          rw [List.filter_append, hfm, List.length_append]
          simp [hcount]
      · have hbump : bumpCount m.conversationId s = s := by
          unfold bumpCount
          rw [if_neg (by simpa [beq_iff_eq] using hc)]
        rw [hbump]
        refine ⟨?_, hcreated, ?_⟩
        · rw [List.find?_append, hfind, Option.or_some]
        · have hfm : [m].filter
              (fun m' => m'.conversationId == s.conversationId) = [] := by
            simp only [List.filter_cons, List.filter_nil, beq_iff_eq]
            rw [if_neg (fun h => hc h.symm)]
          rw [List.filter_append, hfm, List.append_nil]
          exact hcount
  · rw [addMessageToMap, if_neg hany]
    have hnone : ∀ s ∈ acc, s.conversationId ≠ m.conversationId := by
      intro s hs hcontra
      exact hany (List.any_eq_true.mpr ⟨s, hs, by rwa [beq_iff_eq]⟩)
    have hnoproc : ¬ ∃ m' ∈ processed, m'.conversationId = m.conversationId := by
      intro hexp
      obtain ⟨s, hs, hscid⟩ := (hcover m.conversationId).mpr hexp
      exact hnone s hs hscid
    refine ⟨?_, ?_, ?_⟩
    · rw [List.map_append]
      rw [List.nodup_append]
      refine ⟨hnodup, by simp, ?_⟩
      intro a ha hb
      rw [List.mem_map] at ha
      obtain ⟨s, hs, rfl⟩ := ha
      simp only [List.map_cons, List.map_nil, List.mem_singleton] at hb
      exact hnone s hs hb
    · intro cid
      constructor
      · rintro ⟨s, hs, hcid⟩
        rcases List.mem_append.mp hs with hsa | hsn
        · obtain ⟨m', hm', hm'cid⟩ := (hcover cid).mp ⟨s, hsa, hcid⟩
          exact ⟨m', List.mem_append_left _ hm', hm'cid⟩
        · rw [List.mem_singleton] at hsn
          subst hsn
          exact ⟨m, List.mem_append_right _ (List.mem_singleton.mpr rfl), hcid⟩
      · rintro ⟨m', hm', hm'cid⟩
        rcases List.mem_append.mp hm' with hmp | hmm
        · obtain ⟨s, hs, hscid⟩ := (hcover cid).mpr ⟨m', hmp, hm'cid⟩
          exact ⟨s, List.mem_append_left _ hs, hscid⟩
        · rw [List.mem_singleton] at hmm
          rw [hmm] at hm'cid
          exact ⟨newSummary m, List.mem_append_right _ (List.mem_singleton.mpr rfl),
            hm'cid⟩
    · intro s hs
      rcases List.mem_append.mp hs with hsa | hsn
      · obtain ⟨hfind, hcreated, hcount⟩ := hfacts s hsa
        refine ⟨?_, hcreated, ?_⟩
        · rw [List.find?_append, hfind, Option.or_some]
        · have hfm : [m].filter
              (fun m' => m'.conversationId == s.conversationId) = [] := by
            simp only [List.filter_cons, List.filter_nil, beq_iff_eq]
            rw [if_neg (fun h => hnone s hsa h.symm)]
          rw [List.filter_append, hfm, List.append_nil]
          exact hcount
      · rw [List.mem_singleton] at hsn
        subst hsn
        have hfindnone : processed.find?
            (fun m' => m'.conversationId == (newSummary m).conversationId) = none := by
          rw [List.find?_eq_none]
          intro x hx hcontra
          exact hnoproc ⟨x, hx, by simpa [newSummary, beq_iff_eq] using hcontra⟩
        have hfiltnil : processed.filter
            (fun m' => m'.conversationId == (newSummary m).conversationId) = [] := by
          rw [List.filter_eq_nil_iff]
          intro x hx hcontra
          exact hnoproc ⟨x, hx, by simpa [newSummary, beq_iff_eq] using hcontra⟩
        refine ⟨?_, rfl, ?_⟩
        · rw [List.find?_append, hfindnone, Option.none_or, List.find?_cons]
          have : (m.conversationId == (newSummary m).conversationId) = true := by
            simp [newSummary]
          rw [this]
          rfl
        · rw [List.filter_append, hfiltnil, List.nil_append]
          have : [m].filter
              (fun m' => m'.conversationId == (newSummary m).conversationId) = [m] := by
            simp [List.filter_cons, newSummary]
          rw [this]
          rfl

/-- The grouping fold preserves the invariant over any scan segment. -/
theorem goodAcc_foldl (msgs : List ChatMessage) :
    ∀ (processed : List ChatMessage) (acc : List ConversationSummary),
      GoodAcc processed acc →
      GoodAcc (processed ++ msgs) (msgs.foldl addMessageToMap acc) := by
  induction msgs with
  | nil =>
    intro p acc h
    simpa using h
  | cons m rest ih =>
    intro p acc h
    have h2 := ih (p ++ [m]) (addMessageToMap acc m) (goodAcc_step p acc m h)
    rw [List.append_assoc, List.singleton_append] at h2
    exact h2

/-- The invariant holds of the empty state. -/
theorem goodAcc_nil : GoodAcc [] [] := by
  refine ⟨List.nodup_nil, fun cid => ?_, fun s hs => ?_⟩
  · simp
  · simp at hs

/-- Facts about the grouping fold over a newest-first scan: distinct
keys covering exactly the scanned conversation ids, and per summary the
group's newest message, its time, and the group size. -/
theorem groups_facts (msgs : List ChatMessage)
    (hdesc : msgs.Pairwise (fun a b => b.creationTime < a.creationTime)) :
    ((msgs.foldl addMessageToMap []).map (fun s => s.conversationId)).Nodup
    ∧ (∀ cid, (∃ s ∈ msgs.foldl addMessageToMap [], s.conversationId = cid)
        ↔ ∃ m ∈ msgs, m.conversationId = cid)
    ∧ (∀ s ∈ msgs.foldl addMessageToMap [],
        s.lastMessage ∈ msgs ∧ s.lastMessage.conversationId = s.conversationId
        ∧ s.createdAt = s.lastMessage.creationTime
        ∧ (∀ m ∈ msgs, m.conversationId = s.conversationId →
            m.creationTime ≤ s.lastMessage.creationTime)
        ∧ s.messageCount = (msgs.filter
            (fun m => m.conversationId == s.conversationId)).length) := by
  have hgood : GoodAcc msgs (msgs.foldl addMessageToMap []) := by
    have hg := goodAcc_foldl msgs [] [] goodAcc_nil
    simpa using hg
  obtain ⟨hnodup, hcover, hfacts⟩ := hgood
  refine ⟨hnodup, hcover, fun s hs => ?_⟩
  obtain ⟨hfind, hcreated, hcount⟩ := hfacts s hs
  have hmem : s.lastMessage ∈ msgs := List.mem_of_find?_eq_some hfind
  have hcid : s.lastMessage.conversationId = s.conversationId := by
    have hp := List.find?_some hfind
    rwa [beq_iff_eq] at hp
  refine ⟨hmem, hcid, hcreated, fun m hm hmcid => ?_, hcount⟩
  have hres := find?_pairwise_rel msgs hdesc _ s.lastMessage hfind m hm
    (by rwa [beq_iff_eq])
  rcases hres with rfl | hlt
  · exact Nat.le_refl _
  · exact Nat.le_of_lt hlt

/-- C9 (confirmed): for an authenticated caller the query yields one
summary per distinct conversation id among the caller's messages,
ordered by most-recent-activity (`createdAt`) descending; each
summary's `lastMessage` is the group's most recent message (no earlier
message of the group is newer), `createdAt` is that message's creation
time, and `messageCount` counts the caller's messages under the id. -/
theorem c9_getUserConversations (u : Nat) (db : Db) (h : Db.Wf db) :
    ((getUserConversations (some u) db).map (fun s => s.conversationId)).Nodup
    ∧ (∀ cid, (∃ s ∈ getUserConversations (some u) db, s.conversationId = cid)
        ↔ ∃ m ∈ db.messages, m.userId = u ∧ m.conversationId = cid)
    ∧ (getUserConversations (some u) db).Pairwise
        (fun a b => b.createdAt ≤ a.createdAt)
    ∧ (∀ s ∈ getUserConversations (some u) db,
        s.lastMessage ∈ db.messages ∧ s.lastMessage.userId = u
        ∧ s.lastMessage.conversationId = s.conversationId
        ∧ s.createdAt = s.lastMessage.creationTime
        ∧ (∀ m ∈ db.messages, m.userId = u → m.conversationId = s.conversationId →
            m.creationTime ≤ s.lastMessage.creationTime)
        ∧ s.messageCount = (db.messages.filter
            (fun m => m.userId == u && m.conversationId == s.conversationId)).length) := by
  have hdesc : ((db.messages.filter (fun m => m.userId == u)).reverse).Pairwise
      (fun a b => b.creationTime < a.creationTime) := by
    rw [List.pairwise_reverse]
    exact h.1.sublist (List.filter_sublist db.messages)
  obtain ⟨hnodup, hcover, hfacts⟩ := groups_facts _ hdesc
  have hperm : List.Perm (getUserConversations (some u) db)
      (((db.messages.filter (fun m => m.userId == u)).reverse).foldl addMessageToMap []) :=
    List.mergeSort_perm _ _
  have hmem_msgs : ∀ m : ChatMessage,
      m ∈ (db.messages.filter (fun m => m.userId == u)).reverse
      ↔ m ∈ db.messages ∧ m.userId = u := by
    intro m
    simp [List.mem_reverse, List.mem_filter, beq_iff_eq]
  refine ⟨?_, ?_, ?_, ?_⟩
  · exact ((hperm.map (fun s => s.conversationId)).nodup_iff).mpr hnodup
  · intro cid
    constructor
    · rintro ⟨s, hsmem, hscid⟩
      obtain ⟨m, hm, hmcid⟩ := (hcover cid).mp ⟨s, hperm.mem_iff.mp hsmem, hscid⟩
      obtain ⟨hmdb, hmu⟩ := (hmem_msgs m).mp hm
      exact ⟨m, hmdb, hmu, hmcid⟩
    · rintro ⟨m, hm, hmu, hmcid⟩
      obtain ⟨s, hsg, hscid⟩ :=
        (hcover cid).mpr ⟨m, (hmem_msgs m).mpr ⟨hm, hmu⟩, hmcid⟩
      exact ⟨s, hperm.mem_iff.mpr hsg, hscid⟩
  · have htrans : ∀ a b c : ConversationSummary,
        (fun a b : ConversationSummary => decide (b.createdAt ≤ a.createdAt)) a b = true →
        (fun a b : ConversationSummary => decide (b.createdAt ≤ a.createdAt)) b c = true →
        (fun a b : ConversationSummary => decide (b.createdAt ≤ a.createdAt)) a c = true := by
      intro a b c hab hbc
      simp only [decide_eq_true_eq] at hab hbc ⊢
      omega
    have htotal : ∀ a b : ConversationSummary,
        ((fun a b : ConversationSummary => decide (b.createdAt ≤ a.createdAt)) a b
          || (fun a b : ConversationSummary => decide (b.createdAt ≤ a.createdAt)) b a)
          = true := by
      intro a b
      simp only [Bool.or_eq_true, decide_eq_true_eq]
      omega
    have hs := @List.sorted_mergeSort ConversationSummary
      (fun a b => decide (b.createdAt ≤ a.createdAt)) htrans htotal
      (((db.messages.filter (fun m => m.userId == u)).reverse).foldl addMessageToMap [])
    have hun : getUserConversations (some u) db
        = (((db.messages.filter (fun m => m.userId == u)).reverse).foldl
            addMessageToMap []).mergeSort
            (fun a b => decide (b.createdAt ≤ a.createdAt)) := rfl
    rw [hun]
    exact hs.imp (fun hab => by simpa using hab)
  · intro s hsmem
    obtain ⟨hlm_mem, hlm_cid, hcreated, hmax, hcount⟩ :=
      hfacts s (hperm.mem_iff.mp hsmem)
    obtain ⟨hlmdb, hlmu⟩ := (hmem_msgs s.lastMessage).mp hlm_mem
    refine ⟨hlmdb, hlmu, hlm_cid, hcreated, fun m hm hmu hmcid => ?_, ?_⟩
    · exact hmax m ((hmem_msgs m).mpr ⟨hm, hmu⟩) hmcid
    · rw [hcount, List.filter_reverse, List.length_reverse, List.filter_filter]
      exact congrArg List.length (List.filter_congr (fun a _ => Bool.and_comm _ _))

/-- C9 (witness): with the concrete two-conversation store, the
summaries are ordered most-recent-first. -/
theorem c9_witness :
    Db.Wf c9Db
    ∧ (getUserConversations (some 1) c9Db).Pairwise
        (fun a b => b.createdAt ≤ a.createdAt) :=
  ⟨by decide, (c9_getUserConversations 1 c9Db (by decide)).2.2.1⟩

end Caption
